import Mathlib

/-
Verification development for the go-middle repository
(github.com/digitcodestudiotech/go-middle).

The repository has two components with engineering content:
  * crypto/key.go     — `RemotePublicKey`, a self-refreshing remote
                        public-key cache (KeyCache in the spec);
  * middleware/verify.go — `VerifyToken`, the Gin bearer-token
                        verification middleware (TokenVerifier in the spec).

The shallow embedding below translates these files into Lean.  External
effects (the HTTP GET, the PEM/x509 decoding libraries, the golang-jwt
parser) are modelled by passing the *outcome* of each external call as an
explicit argument: the Go code only branches on those outcomes, so its
control flow is captured exactly.  Machine state that Go mutates in place
(`r.publicKey`, `r.lastUpdated`) is threaded as explicit state.
-/

namespace GoMiddle

/-! ## crypto/key.go — the remote public-key cache -/

/-- An RSA public key (`*rsa.PublicKey` in Go): modulus `n` and public
exponent `e`.  The verification claims never compute with the key material,
so the fields only serve to distinguish keys. -/
structure RSAPublicKey where
  n : Nat
  e : Nat
deriving DecidableEq, Repr

/-- The result of `x509.ParsePKIXPublicKey` when it succeeds: either an
RSA public key, or a public key of some other family (ECDSA, Ed25519, …),
which the code rejects with "not RSA public key". -/
inductive ParsedKey where
  | rsa (k : RSAPublicKey)
  | otherFamily
deriving DecidableEq, Repr

/-- The combined outcome of the external calls made by one execution of
`refresh()`: `http.Get`, `io.ReadAll`, `pem.Decode`, and
`x509.ParsePKIXPublicKey`.  The Go code inspects these outcomes in this
exact order and branches on them; nothing else about the network or the
decoding libraries is observable to it. -/
inductive FetchOutcome where
  | netErr                 -- `http.Get` returned a non-nil error
  | readErr                -- `io.ReadAll` returned a non-nil error
  | noPemBlock             -- `pem.Decode` returned a nil block
  | pkixErr                -- `x509.ParsePKIXPublicKey` returned an error
  | parsed (k : ParsedKey) -- parse succeeded with this key
deriving DecidableEq, Repr

/-- The errors `refresh()` can return, one per early-return site in the
Go source. -/
inductive RefreshError where
  | fetchErr    -- the error from `http.Get`
  | readErr     -- the error from `io.ReadAll`
  | invalidPEM  -- `errors.New("invalid PEM")`
  | pkixErr     -- the error from `x509.ParsePKIXPublicKey`
  | notRSA      -- `errors.New("not RSA public key")`
deriving DecidableEq, Repr

/-- The message of the errors `refresh` itself constructs (the other
cases propagate an external error value whose text the code does not
choose). -/
def RefreshError.message : RefreshError → Option String
  | .invalidPEM => some "invalid PEM"
  | .notRSA     => some "not RSA public key"
  | _           => none

/-- The `RemotePublicKey` struct of crypto/key.go.  `publicKey` is a
`*rsa.PublicKey` pointer in Go, nil before the first successful fetch:
`Option` captures the nil case.  `lastUpdated` is a `time.Time`,
modelled as a `Nat` timestamp (zero value before the first success).
The `sync.RWMutex` field is synchronization only and carries no data;
the concurrency claims are settled on a dedicated interleaving model
below. -/
structure RemotePublicKey where
  url          : String
  publicKey    : Option RSAPublicKey
  lastUpdated  : Nat
  refreshEvery : Nat
deriving DecidableEq, Repr

/-- `refresh()` of crypto/key.go.  `out` is the outcome of the external
calls of this attempt and `now` is `time.Now()`.  Every early-return site
of the Go function is an `Except.error`; only the final success branch —
the one executed under `r.mu.Lock()` — produces an updated state, exactly
as only that branch mutates `r` in Go. -/
def RemotePublicKey.refresh (r : RemotePublicKey) (out : FetchOutcome)
    (now : Nat) : Except RefreshError RemotePublicKey :=
  match out with
  | .netErr            => .error .fetchErr
  | .readErr           => .error .readErr
  | .noPemBlock        => .error .invalidPEM
  | .pkixErr           => .error .pkixErr
  | .parsed .otherFamily => .error .notRSA
  | .parsed (.rsa k)   =>
      .ok { r with publicKey := some k, lastUpdated := now }

/-- `NewRemotePublicKey(url, refreshEvery)` of crypto/key.go: builds the
zero-valued struct and performs the initial synchronous `refresh()`;
a failing refresh makes the constructor return `(nil, err)`.  On success
Go also spawns `go r.autoRefresh()`, modelled by `autoRefreshRun` on
traces of later fetch outcomes. -/
def NewRemotePublicKey (url : String) (refreshEvery : Nat)
    (out : FetchOutcome) (now : Nat) :
    Except RefreshError RemotePublicKey :=
  let r : RemotePublicKey :=
    { url := url, publicKey := none, lastUpdated := 0,
      refreshEvery := refreshEvery }
  r.refresh out now

/-- `Get()` of crypto/key.go: under `RLock` it returns the stored
pointer.  In the embedding it is a pure read of the state — it takes no
`FetchOutcome` and produces no new state, so it can neither perform nor
trigger a fetch. -/
def RemotePublicKey.Get (r : RemotePublicKey) : Option RSAPublicKey :=
  r.publicKey

/-- One tick of `autoRefresh()`: `_ = r.refresh()` — the error is
discarded, and since every error path of `refresh` returns before the
locked assignment, a failed attempt leaves the state untouched. -/
def autoRefreshStep (r : RemotePublicKey) (out : FetchOutcome)
    (now : Nat) : RemotePublicKey :=
  match r.refresh out now with
  | .ok r'   => r'
  | .error _ => r

/-- The background `autoRefresh()` loop run over a finite trace of ticks;
each list element is the fetch outcome and the `time.Now()` of one tick. -/
def autoRefreshRun (r : RemotePublicKey) :
    List (FetchOutcome × Nat) → RemotePublicKey
  | []                  => r
  | (out, now) :: rest  => autoRefreshRun (autoRefreshStep r out now) rest

/-- Spec-side characterization (§4.1 "returns whatever was last
successfully stored"): the key installed by the last successful fetch in
a trace of refresh ticks, starting from an initially installed key `k0`. -/
def lastSuccessfulKey (k0 : RSAPublicKey) :
    List (FetchOutcome × Nat) → RSAPublicKey
  | [] => k0
  | (out, _) :: rest =>
      match out with
      | .parsed (.rsa k) => lastSuccessfulKey k rest
      | _                => lastSuccessfulKey k0 rest

/-- Spec-side error taxonomy of §7, for comparing the constructor's
errors with the classes the spec names. -/
inductive ConstructErrorClass where
  | FetchError
  | FormatError
  | KeyTypeError
deriving DecidableEq, Repr

/-- Modelled from the spec's error taxonomy (§7): which class each
concrete error of `refresh` falls in.  Network/transport failures
(including failing to read the body) are `FetchError`; an undecodable or
unparsable body is `FormatError`; a decoded key of the wrong family is
`KeyTypeError`. -/
def RefreshError.specClass : RefreshError → ConstructErrorClass
  | .fetchErr   => .FetchError
  | .readErr    => .FetchError
  | .invalidPEM => .FormatError
  | .pkixErr    => .FormatError
  | .notRSA     => .KeyTypeError

/-- Modelled from the spec's error taxonomy (§7): the class of failure a
given fetch outcome must produce, `none` when the outcome is a success. -/
def FetchOutcome.failureClass : FetchOutcome → Option ConstructErrorClass
  | .netErr              => some .FetchError
  | .readErr             => some .FetchError
  | .noPemBlock          => some .FormatError
  | .pkixErr             => some .FormatError
  | .parsed .otherFamily => some .KeyTypeError
  | .parsed (.rsa _)     => none

/-! ### Helper lemmas about the cache -/

/-- A failed refresh changes nothing: every `Except.error` branch of
`refresh` is taken before the locked assignment. -/
theorem autoRefreshStep_of_error {r : RemotePublicKey} {out : FetchOutcome}
    {now : Nat} {e : RefreshError} (h : r.refresh out now = .error e) :
    autoRefreshStep r out now = r := by
  unfold autoRefreshStep
  rw [h]

/-- Running the refresh loop from a state holding key `k` yields the
state holding the last successfully fetched key of the trace. -/
theorem autoRefreshRun_publicKey (steps : List (FetchOutcome × Nat)) :
    ∀ (r : RemotePublicKey) (k : RSAPublicKey), r.publicKey = some k →
      (autoRefreshRun r steps).publicKey = some (lastSuccessfulKey k steps) := by
  induction steps with
  | nil => intro r k hk; simpa [autoRefreshRun, lastSuccessfulKey] using hk
  | cons p rest ih =>
      intro r k hk
      obtain ⟨out, now⟩ := p
      cases out with
      | netErr =>
          simpa [autoRefreshRun, lastSuccessfulKey, autoRefreshStep,
            RemotePublicKey.refresh] using ih r k hk
      | readErr =>
          simpa [autoRefreshRun, lastSuccessfulKey, autoRefreshStep,
            RemotePublicKey.refresh] using ih r k hk
      | noPemBlock =>
          simpa [autoRefreshRun, lastSuccessfulKey, autoRefreshStep,
            RemotePublicKey.refresh] using ih r k hk
      | pkixErr =>
          simpa [autoRefreshRun, lastSuccessfulKey, autoRefreshStep,
            RemotePublicKey.refresh] using ih r k hk
      | parsed pk =>
          cases pk with
          | otherFamily =>
              simpa [autoRefreshRun, lastSuccessfulKey, autoRefreshStep,
                RemotePublicKey.refresh] using ih r k hk
          | rsa k' =>
              simp only [autoRefreshRun, lastSuccessfulKey, autoRefreshStep,
                RemotePublicKey.refresh]
              exact ih _ k' rfl

/-! ## middleware/verify.go — the bearer-token verification middleware -/

/-- The header of a parsed JWT, as seen by the key callback
(`*jwt.Token` exposes, among other things, the declared signing
algorithm).  The middleware's callback ignores it entirely. -/
structure TokenHeader where
  alg : String
deriving DecidableEq, Repr

/-- The claim mapping `jwt.MapClaims` (`map[string]interface{}` in Go);
claim values are modelled as strings, which is all the middleware needs
since it never inspects them. -/
abbrev ClaimMap := List (String × String)

/-- The dynamic type of `token.Claims`: `jwt.Claims` is an interface
with several implementations; `jwt.MapClaims` is one of them, and the
middleware's unchecked type assertion `token.Claims.(jwt.MapClaims)`
panics on any other. -/
inductive TokenClaims where
  | mapClaims (m : ClaimMap)
  | otherImpl
deriving DecidableEq, Repr

/-- The outcome of `jwt.Parse` as the middleware observes it: either a
non-nil error (`err != nil`, covering malformed token bodies, signature
mismatches and expiry), or a token carrying its `Valid` flag and its
`Claims` value. -/
inductive ParseOutcome where
  | parseErr
  | token (valid : Bool) (claims : TokenClaims)
deriving DecidableEq, Repr

/-- The type of the key callback passed to `jwt.Parse`:
`func(t *jwt.Token) (interface{}, error)`.  The returned pair is the
verification key and the callback's error. -/
abbrev Keyfunc := TokenHeader → Option RSAPublicKey × Option String

/-- The literal closure of middleware/verify.go:
`func(t *jwt.Token) (interface{}, error) { return remoteKey.Get(), nil }`. -/
def middlewareKeyfunc (remoteKey : RemotePublicKey) : Keyfunc :=
  fun _ => (remoteKey.Get, none)

/-- A model of the external `jwt.Parse` routine: it receives the key
callback and the token string and produces a `ParseOutcome`.  The
middleware's claims hold for every such routine, so it is passed in as a
parameter rather than fixed. -/
abbrev JwtParse := Keyfunc → List Char → ParseOutcome

/-- What the handler does with the Gin context: either
`c.AbortWithStatusJSON(status, gin.H{"error": errMsg})`, or
`c.Set(ctxKey, claims)` followed by `c.Next()`. -/
inductive VerifyResult where
  | reject (status : Nat) (errMsg : String)
  | proceed (ctxKey : String) (claims : ClaimMap)
deriving DecidableEq, Repr

/-- `strings.Split(s, " ")` of the Go standard library, for the one-space
separator used by the middleware: the string is cut at every space
character and the pieces (possibly empty) are returned in order;
the empty string yields one empty piece. -/
def splitOnSpace : List Char → List (List Char)
  | [] => [[]]
  | c :: cs =>
      match splitOnSpace cs with
      | []      => [[]]
      | p :: ps => if c = ' ' then [] :: p :: ps else (c :: p) :: ps

/-- `http.StatusUnauthorized`. -/
def statusUnauthorized : Nat := 401

/-- The request handler returned by `VerifyToken()` in
middleware/verify.go, applied to the `Authorization` header value of one
request.  `jwtParse` stands for the external `jwt.Parse`; the handler
passes it the literal key callback and the token string, exactly as the
source does.  The result is `none` only when the unchecked type
assertion `token.Claims.(jwt.MapClaims)` panics. -/
def verifyToken (jwtParse : JwtParse) (remoteKey : RemotePublicKey)
    (auth : List Char) : Option VerifyResult :=
  if auth = [] then
    some (.reject statusUnauthorized "missing authorization header")
  else
    match splitOnSpace auth with
    | [scheme, tokenStr] =>
        if scheme = "Bearer".data then
          match jwtParse (middlewareKeyfunc remoteKey) tokenStr with
          | .parseErr =>
              some (.reject statusUnauthorized "invalid or expired token")
          | .token valid claims =>
              if valid then
                match claims with
                | .mapClaims m => some (.proceed "claims" m)
                | .otherImpl   => none
              else
                some (.reject statusUnauthorized "invalid or expired token")
        else
          some (.reject statusUnauthorized "invalid authorization format")
    | _ => some (.reject statusUnauthorized "invalid authorization format")

/-- Modelled from the spec: golang-jwt's `jwt.Parse` is not part of
src/; called without a claims option it always populates `token.Claims`
with a `jwt.MapClaims` value ("Claims: an opaque mapping from claim name
to value", spec §3).  A parse routine satisfies this contract when every
token it returns carries a claim mapping. -/
def JwtParseYieldsMapClaims (jp : JwtParse) : Prop :=
  ∀ (kf : Keyfunc) (t : List Char) (v : Bool) (cl : TokenClaims),
    jp kf t = .token v cl → ∃ m, cl = .mapClaims m

/-! ### Helper lemmas about the middleware -/

/-- `splitOnSpace` never returns the empty list. -/
theorem splitOnSpace_ne_nil (l : List Char) : splitOnSpace l ≠ [] := by
  cases l with
  | nil => simp [splitOnSpace]
  | cons c cs =>
      unfold splitOnSpace
      cases h : splitOnSpace cs with
      | nil => simp
      | cons p ps =>
          by_cases hc : c = ' ' <;> simp [hc]

/-- A space-free string is returned as a single piece. -/
theorem splitOnSpace_no_space {t : List Char} (h : ' ' ∉ t) :
    splitOnSpace t = [t] := by
  induction t with
  | nil => simp [splitOnSpace]
  | cons c cs ih =>
      have hc : c ≠ ' ' := fun hce => h (hce ▸ List.mem_cons_self c cs)
      have hcs : ' ' ∉ cs := fun hm => h (List.mem_cons_of_mem c hm)
      unfold splitOnSpace
      rw [ih hcs]
      simp [hc]

/-- The defining equation of `splitOnSpace` on a cons cell, stated for
rewriting. -/
theorem splitOnSpace_cons (c : Char) (cs : List Char) :
    splitOnSpace (c :: cs) =
      match splitOnSpace cs with
      | []      => [[]]
      | p :: ps => if c = ' ' then [] :: p :: ps else (c :: p) :: ps := rfl

/-- Splitting at the first space: a space-free first piece comes out
whole, followed by the pieces of the rest. -/
theorem splitOnSpace_append {a : List Char} (ha : ' ' ∉ a) (t : List Char) :
    splitOnSpace (a ++ ' ' :: t) = a :: splitOnSpace t := by
  induction a with
  | nil =>
      cases hpt : splitOnSpace t with
      | nil => exact absurd hpt (splitOnSpace_ne_nil t)
      | cons p ps =>
          rw [List.nil_append, splitOnSpace_cons, hpt]
          simp
  | cons c a ih =>
      have hc : c ≠ ' ' := fun hce => ha (hce ▸ List.mem_cons_self c a)
      have ha' : ' ' ∉ a := fun hm => ha (List.mem_cons_of_mem c hm)
      rw [List.cons_append, splitOnSpace_cons, ih ha']
      simp [hc]

/-- Splitting `"Bearer <t>"` for a space-free token `t` yields exactly
the scheme and the token. -/
theorem splitOnSpace_bearer {t : List Char} (h : ' ' ∉ t) :
    splitOnSpace ("Bearer".data ++ ' ' :: t) = ["Bearer".data, t] := by
  rw [splitOnSpace_append (by decide) t, splitOnSpace_no_space h]

/-! ## Interleaving model of one refresh racing with readers

`refresh()` runs its network and decoding work with no lock held, then
executes `r.mu.Lock(); r.publicKey = rsaPub; r.lastUpdated = time.Now();
r.mu.Unlock()`.  `Get()` reads under `r.mu.RLock()`.  The model below
makes each of those actions one atomic step of a transition system: one
writer thread (a successful refresh installing `k1` at time `t1`) and any
number of reader sections guarded by the read lock, interleaved
arbitrarily subject only to the `sync.RWMutex` discipline (the write
lock is granted only with no readers and no writer; a read lock is
granted only with no writer). -/

/-- The program counter of the refresh task, naming the action it
executes next: the unlocked fetch/decode work, then acquire the write
lock, the two field assignments, release, done. -/
inductive WriterPC where
  | fetching
  | acquire
  | setKey
  | setTime
  | release
  | done
deriving DecidableEq, Repr

/-- A configuration of the shared cache cell together with the lock
state and the refresh task's position.  `readerCount` is the number of
`Get`/`Verify` calls currently inside their `RLock`-guarded section. -/
structure RaceConf where
  key         : RSAPublicKey
  updatedAt   : Nat
  writerHolds : Bool
  readerCount : Nat
  wpc         : WriterPC
deriving DecidableEq, Repr

/-- One atomic step of the interleaved execution.  Writer steps follow
the source order of `refresh()`; `rlock`/`runlock` bracket a reader's
critical section.  The guards on `acquireW` and `rlock` are exactly the
`sync.RWMutex` admission rules. -/
inductive RaceStep (k1 : RSAPublicKey) (t1 : Nat) : RaceConf → RaceConf → Prop where
  | fetch {c : RaceConf} :
      c.wpc = .fetching →
      RaceStep k1 t1 c { c with wpc := .acquire }
  | acquireW {c : RaceConf} :
      c.wpc = .acquire → c.readerCount = 0 → c.writerHolds = false →
      RaceStep k1 t1 c { c with writerHolds := true, wpc := .setKey }
  | setKey {c : RaceConf} :
      c.wpc = .setKey →
      RaceStep k1 t1 c { c with key := k1, wpc := .setTime }
  | setTime {c : RaceConf} :
      c.wpc = .setTime →
      RaceStep k1 t1 c { c with updatedAt := t1, wpc := .release }
  | releaseW {c : RaceConf} :
      c.wpc = .release →
      RaceStep k1 t1 c { c with writerHolds := false, wpc := .done }
  | rlock {c : RaceConf} :
      c.writerHolds = false →
      RaceStep k1 t1 c { c with readerCount := c.readerCount + 1 }
  | runlock {c : RaceConf} :
      0 < c.readerCount →
      RaceStep k1 t1 c { c with readerCount := c.readerCount - 1 }

/-- The initial configuration: the cache holds the previous key `k0`
installed at `t0`, no locks are held, and the refresh task is about to
perform its unlocked network fetch. -/
def raceInit (k0 : RSAPublicKey) (t0 : Nat) : RaceConf :=
  { key := k0, updatedAt := t0, writerHolds := false, readerCount := 0,
    wpc := .fetching }

/-- Configurations reachable from the initial one by interleaved steps. -/
def RaceReachable (k0 : RSAPublicKey) (t0 : Nat) (k1 : RSAPublicKey)
    (t1 : Nat) (c : RaceConf) : Prop :=
  Relation.ReflTransGen (RaceStep k1 t1) (raceInit k0 t0) c

/-- The inductive invariant of the race model: the write lock is held
exactly in the assignment region, lock holders exclude each other, and
the shared pair is determined by the writer's position — in particular
it is torn (`k1` with `t0`) only between the two assignments, where the
write lock is held. -/
def RaceInv (k0 : RSAPublicKey) (t0 : Nat) (k1 : RSAPublicKey) (t1 : Nat)
    (c : RaceConf) : Prop :=
  (c.writerHolds = true ↔
      (c.wpc = .setKey ∨ c.wpc = .setTime ∨ c.wpc = .release))
  ∧ (c.writerHolds = true → c.readerCount = 0)
  ∧ ((c.wpc = .fetching ∨ c.wpc = .acquire ∨ c.wpc = .setKey) →
      c.key = k0 ∧ c.updatedAt = t0)
  ∧ (c.wpc = .setTime → c.key = k1 ∧ c.updatedAt = t0)
  ∧ ((c.wpc = .release ∨ c.wpc = .done) → c.key = k1 ∧ c.updatedAt = t1)

/-- The invariant holds in every reachable configuration. -/
theorem raceInv_of_reachable {k0 : RSAPublicKey} {t0 : Nat}
    {k1 : RSAPublicKey} {t1 : Nat} {c : RaceConf}
    (h : RaceReachable k0 t0 k1 t1 c) : RaceInv k0 t0 k1 t1 c := by
  induction h with
  | refl =>
      refine ⟨?_, ?_, ?_, ?_, ?_⟩ <;> simp [raceInit, RaceInv]
  | tail _ hstep ih =>
      obtain ⟨ihLock, ihExcl, ihOld, ihMid, ihNew⟩ := ih
      cases hstep with
      | fetch hpc =>
          refine ⟨?_, ?_, ?_, ?_, ?_⟩ <;> simp_all
      | acquireW hpc hrc hw =>
          refine ⟨?_, ?_, ?_, ?_, ?_⟩ <;> simp_all
      | setKey hpc =>
          refine ⟨?_, ?_, ?_, ?_, ?_⟩ <;> simp_all
      | setTime hpc =>
          refine ⟨?_, ?_, ?_, ?_, ?_⟩ <;> simp_all
      | releaseW hpc =>
          refine ⟨?_, ?_, ?_, ?_, ?_⟩ <;> simp_all
      | rlock hw =>
          refine ⟨?_, ?_, ?_, ?_, ?_⟩ <;> simp_all
      | runlock hrc =>
          refine ⟨?_, ?_, ?_, ?_, ?_⟩ <;> simp_all

/-! ## Concrete samples used by the witnesses -/

/-- A cache state as produced by a successful construction. -/
def rSample : RemotePublicKey :=
  { url := "u", publicKey := some ⟨3, 5⟩, lastUpdated := 7, refreshEvery := 5 }

/-- The same cache contents behind a different source URL. -/
def rSample2 : RemotePublicKey :=
  { url := "v", publicKey := some ⟨3, 5⟩, lastUpdated := 7, refreshEvery := 5 }

/-- A parse routine that always reports a parse/validation error. -/
def jpErr : JwtParse := fun _ _ => .parseErr

/-- A parse routine that always returns a valid token with a claim
mapping. -/
def jpOk : JwtParse :=
  fun _ _ => .token true (.mapClaims [("sub", "alice")])

/-! ## The claims -/

/-- Claim C1: once `NewRemotePublicKey` succeeds the stored public key is
non-nil and stays non-nil under any trace of background refreshes, and a
refresh attempt that fails at any step leaves the whole state — in
particular `publicKey` and `lastUpdated` — unchanged. -/
theorem C1_stale_but_valid :
    (∀ (url : String) (d : Nat) (out : FetchOutcome) (now : Nat)
       (r : RemotePublicKey),
       NewRemotePublicKey url d out now = .ok r →
       r.publicKey.isSome = true ∧
       ∀ steps, (autoRefreshRun r steps).publicKey.isSome = true)
  ∧ (∀ (r : RemotePublicKey) (out : FetchOutcome) (now : Nat)
       (e : RefreshError), r.refresh out now = .error e →
       autoRefreshStep r out now = r) := by
  constructor
  · intro url d out now r h
    cases out with
    | netErr => simp [NewRemotePublicKey, RemotePublicKey.refresh] at h
    | readErr => simp [NewRemotePublicKey, RemotePublicKey.refresh] at h
    | noPemBlock => simp [NewRemotePublicKey, RemotePublicKey.refresh] at h
    | pkixErr => simp [NewRemotePublicKey, RemotePublicKey.refresh] at h
    | parsed pk =>
        cases pk with
        | otherFamily => simp [NewRemotePublicKey, RemotePublicKey.refresh] at h
        | rsa k =>
            simp only [NewRemotePublicKey, RemotePublicKey.refresh,
              Except.ok.injEq] at h
            have hk : r.publicKey = some k := by rw [← h]
            refine ⟨by simp [hk], fun steps => ?_⟩
            rw [autoRefreshRun_publicKey steps r k hk]
            simp
  · intro r out now e h
    exact autoRefreshStep_of_error h

/-- Witness for C1 at a concrete construction and a concrete failing
refresh tick. -/
theorem C1_stale_but_valid_witness :
    rSample.publicKey.isSome = true
  ∧ (autoRefreshRun rSample [(.netErr, 9)]).publicKey.isSome = true
  ∧ autoRefreshStep rSample .netErr 9 = rSample := by
  have h := C1_stale_but_valid
  have h1 := h.1 "u" 5 (.parsed (.rsa ⟨3, 5⟩)) 7 rSample rfl
  exact ⟨h1.1, h1.2 [(.netErr, 9)], h.2 rSample .netErr 9 .fetchErr rfl⟩

/-- Claim C3: the constructor succeeds exactly when the initial
synchronous fetch succeeds, and when it fails the returned error falls
in the spec's class for that failure: `FetchError` for network/transport
failures, `FormatError` for an undecodable or unparsable body,
`KeyTypeError` for a non-RSA key; no cache object is produced on
failure. -/
theorem C3_fail_fast :
    ∀ (url : String) (d : Nat) (out : FetchOutcome) (now : Nat),
      ((∃ r, NewRemotePublicKey url d out now = .ok r) ↔
        out.failureClass = none)
    ∧ (∀ e, NewRemotePublicKey url d out now = .error e →
        some e.specClass = out.failureClass) := by
  intro url d out now
  cases out with
  | netErr =>
      exact ⟨by simp [NewRemotePublicKey, RemotePublicKey.refresh,
        FetchOutcome.failureClass],
        by intro e h; simp [NewRemotePublicKey, RemotePublicKey.refresh] at h;
           simp [← h, RefreshError.specClass, FetchOutcome.failureClass]⟩
  | readErr =>
      exact ⟨by simp [NewRemotePublicKey, RemotePublicKey.refresh,
        FetchOutcome.failureClass],
        by intro e h; simp [NewRemotePublicKey, RemotePublicKey.refresh] at h;
           simp [← h, RefreshError.specClass, FetchOutcome.failureClass]⟩
  | noPemBlock =>
      exact ⟨by simp [NewRemotePublicKey, RemotePublicKey.refresh,
        FetchOutcome.failureClass],
        by intro e h; simp [NewRemotePublicKey, RemotePublicKey.refresh] at h;
           simp [← h, RefreshError.specClass, FetchOutcome.failureClass]⟩
  | pkixErr =>
      exact ⟨by simp [NewRemotePublicKey, RemotePublicKey.refresh,
        FetchOutcome.failureClass],
        by intro e h; simp [NewRemotePublicKey, RemotePublicKey.refresh] at h;
           simp [← h, RefreshError.specClass, FetchOutcome.failureClass]⟩
  | parsed pk =>
      cases pk with
      | otherFamily =>
          exact ⟨by simp [NewRemotePublicKey, RemotePublicKey.refresh,
            FetchOutcome.failureClass],
            by intro e h; simp [NewRemotePublicKey, RemotePublicKey.refresh] at h;
               simp [← h, RefreshError.specClass, FetchOutcome.failureClass]⟩
      | rsa k =>
          exact ⟨by simp [NewRemotePublicKey, RemotePublicKey.refresh,
            FetchOutcome.failureClass],
            by intro e h;
               simp [NewRemotePublicKey, RemotePublicKey.refresh] at h⟩

/-- Witness for C3 at a concrete network failure. -/
theorem C3_fail_fast_witness :
    some (RefreshError.specClass .fetchErr) = FetchOutcome.netErr.failureClass :=
  (C3_fail_fast "u" 5 .netErr 0).2 .fetchErr rfl

/-- Claim C6: `Get` returns the key most recently stored by a successful
fetch — immediately after construction, the initially fetched key, and
after any trace of background refreshes, the last successfully fetched
key of the trace (possibly stale).  In the embedding `Get` is a pure
state read, so it can neither perform nor trigger any fetch. -/
theorem C6_get_semantics :
    ∀ (url : String) (d : Nat) (k : RSAPublicKey) (now : Nat)
      (r : RemotePublicKey),
      NewRemotePublicKey url d (.parsed (.rsa k)) now = .ok r →
      r.Get = some k
    ∧ ∀ steps, (autoRefreshRun r steps).Get = some (lastSuccessfulKey k steps) := by
  intro url d k now r h
  simp only [NewRemotePublicKey, RemotePublicKey.refresh, Except.ok.injEq] at h
  have hk : r.publicKey = some k := by rw [← h]
  exact ⟨hk, fun steps => autoRefreshRun_publicKey steps r k hk⟩

/-- Witness for C6 at a concrete construction and one-failure trace. -/
theorem C6_get_semantics_witness :
    rSample.Get = some ⟨3, 5⟩
  ∧ (autoRefreshRun rSample [(.netErr, 9)]).Get =
      some (lastSuccessfulKey ⟨3, 5⟩ [(.netErr, 9)]) := by
  have h := C6_get_semantics "u" 5 ⟨3, 5⟩ 7 rSample rfl
  exact ⟨h.1, h.2 [(.netErr, 9)]⟩

/-- Evaluation of the handler when the header splits into exactly two
pieces: the scheme check, then the parse pipeline on the second piece. -/
theorem verifyToken_of_two {jp : JwtParse} {r : RemotePublicKey}
    {auth scheme tok : List Char} (hne : auth ≠ [])
    (hsp : splitOnSpace auth = [scheme, tok]) :
    verifyToken jp r auth =
      if scheme = "Bearer".data then
        match jp (middlewareKeyfunc r) tok with
        | .parseErr =>
            some (.reject statusUnauthorized "invalid or expired token")
        | .token valid claims =>
            if valid then
              match claims with
              | .mapClaims m => some (.proceed "claims" m)
              | .otherImpl   => none
            else
              some (.reject statusUnauthorized "invalid or expired token")
      else
        some (.reject statusUnauthorized "invalid authorization format") := by
  unfold verifyToken
  rw [if_neg hne, hsp]

/-- Evaluation of the handler when the header does not split into
exactly two pieces: the shape check rejects. -/
theorem verifyToken_not_two {jp : JwtParse} {r : RemotePublicKey}
    {auth : List Char} (hne : auth ≠ [])
    (hshape : ∀ scheme tok, splitOnSpace auth ≠ [scheme, tok]) :
    verifyToken jp r auth =
      some (.reject statusUnauthorized "invalid authorization format") := by
  unfold verifyToken
  rw [if_neg hne]
  cases hsp : splitOnSpace auth with
  | nil => exact absurd hsp (splitOnSpace_ne_nil auth)
  | cons p ps =>
      cases ps with
      | nil => rfl
      | cons q qs =>
          cases qs with
          | nil => exact absurd hsp (hshape p q)
          | cons w ws => rfl

/-- Evaluation of the handler on a well-shaped `Bearer <token>` header
with a space-free token: the result is decided by the parse outcome. -/
theorem verifyToken_bearer {jp : JwtParse} {r : RemotePublicKey}
    {t : List Char} (ht : ' ' ∉ t) :
    verifyToken jp r ("Bearer".data ++ ' ' :: t) =
      match jp (middlewareKeyfunc r) t with
      | .parseErr =>
          some (.reject statusUnauthorized "invalid or expired token")
      | .token valid claims =>
          if valid then
            match claims with
            | .mapClaims m => some (.proceed "claims" m)
            | .otherImpl   => none
          else
            some (.reject statusUnauthorized "invalid or expired token") := by
  have hne : "Bearer".data ++ ' ' :: t ≠ [] := by simp
  rw [verifyToken_of_two hne (splitOnSpace_bearer ht), if_pos rfl]

/-- Claim C2: on a well-shaped `Bearer <token>` header, every failure
reported by the JWT parse — a non-nil error (malformed body, bad
signature, expiry) or an invalid token — produces the same rejection
`401 "invalid or expired token"`; and every rejection the handler ever
produces carries the same transport status, `http.StatusUnauthorized`. -/
theorem C2_unified_invalid_token :
    (∀ (jp : JwtParse) (r : RemotePublicKey) (t : List Char), ' ' ∉ t →
       (jp (middlewareKeyfunc r) t = .parseErr ∨
         ∃ cl, jp (middlewareKeyfunc r) t = .token false cl) →
       verifyToken jp r ("Bearer".data ++ ' ' :: t) =
         some (.reject statusUnauthorized "invalid or expired token"))
  ∧ (∀ (jp : JwtParse) (r : RemotePublicKey) (auth : List Char)
       (st : Nat) (msg : String),
       verifyToken jp r auth = some (.reject st msg) →
       st = statusUnauthorized) := by
  constructor
  · intro jp r t ht hfail
    rw [verifyToken_bearer ht]
    rcases hfail with hp | ⟨cl, hp⟩ <;> rw [hp]
    rfl
  · intro jp r auth st msg h
    by_cases hne : auth = []
    · subst hne
      have : verifyToken jp r [] =
          some (.reject statusUnauthorized "missing authorization header") := rfl
      rw [this] at h
      simp only [Option.some.injEq, VerifyResult.reject.injEq] at h
      exact h.1.symm
    · cases hsp : splitOnSpace auth with
      | nil => exact absurd hsp (splitOnSpace_ne_nil auth)
      | cons p ps =>
          cases ps with
          | nil =>
              rw [verifyToken_not_two hne (by simp [hsp])] at h
              simp only [Option.some.injEq, VerifyResult.reject.injEq] at h
              exact h.1.symm
          | cons q qs =>
              cases qs with
              | cons w ws =>
                  rw [verifyToken_not_two hne (by simp [hsp])] at h
                  simp only [Option.some.injEq, VerifyResult.reject.injEq] at h
                  exact h.1.symm
              | nil =>
                  rw [verifyToken_of_two hne hsp] at h
                  by_cases hb : p = "Bearer".data
                  · rw [if_pos hb] at h
                    cases hjp : jp (middlewareKeyfunc r) q with
                    | parseErr =>
                        rw [hjp] at h
                        simp only [Option.some.injEq,
                          VerifyResult.reject.injEq] at h
                        exact h.1.symm
                    | token v cl =>
                        rw [hjp] at h
                        cases v with
                        | false =>
                            simp only [Bool.false_eq_true, if_false,
                              Option.some.injEq, VerifyResult.reject.injEq] at h
                            exact h.1.symm
                        | true =>
                            cases cl with
                            | mapClaims m => simp at h
                            | otherImpl => simp at h
                  · rw [if_neg hb] at h
                    simp only [Option.some.injEq, VerifyResult.reject.injEq] at h
                    exact h.1.symm

/-- Witness for C2 at a concrete failing parse. -/
theorem C2_unified_invalid_token_witness :
    verifyToken jpErr rSample ("Bearer".data ++ ' ' :: "tok".data) =
      some (.reject statusUnauthorized "invalid or expired token") :=
  C2_unified_invalid_token.1 jpErr rSample "tok".data (by decide) (Or.inl rfl)

/-- Claim C4: for a non-empty header value, the handler rejects with
`401 "invalid authorization format"` exactly when splitting the value on
single spaces does not yield exactly two parts whose first is the
literal `Bearer`; in particular `Verify("Token abc")` is rejected that
way. -/
theorem C4_header_shape :
    (∀ (jp : JwtParse) (r : RemotePublicKey) (auth : List Char),
       auth ≠ [] →
       (verifyToken jp r auth =
           some (.reject statusUnauthorized "invalid authorization format") ↔
         ¬((splitOnSpace auth).length = 2 ∧
           (splitOnSpace auth).head? = some "Bearer".data)))
  ∧ (∀ (jp : JwtParse) (r : RemotePublicKey),
       verifyToken jp r "Token abc".data =
         some (.reject statusUnauthorized "invalid authorization format")) := by
  constructor
  · intro jp r auth hne
    cases hsp : splitOnSpace auth with
    | nil => exact absurd hsp (splitOnSpace_ne_nil auth)
    | cons p ps =>
        cases ps with
        | nil =>
            rw [verifyToken_not_two hne (by simp [hsp])]
            simp [hsp]
        | cons q qs =>
            cases qs with
            | cons w ws =>
                rw [verifyToken_not_two hne (by simp [hsp])]
                simp [hsp]
            | nil =>
                rw [verifyToken_of_two hne hsp]
                by_cases hb : p = "Bearer".data
                · subst hb
                  rw [if_pos rfl]
                  simp only [List.length_cons, List.length_nil, List.head?_cons,
                    Option.some.injEq, and_true, not_true_eq_false, iff_false]
                  cases hjp : jp (middlewareKeyfunc r) q with
                  | parseErr => simp
                  | token v cl =>
                      cases v with
                      | false => simp
                      | true =>
                          cases cl with
                          | mapClaims m => simp
                          | otherImpl => simp
                · rw [if_neg hb]
                  simp [hb]
  · intro jp r
    rfl

/-- Witness for C4 at the concrete header `"Token abc"`. -/
theorem C4_header_shape_witness :
    verifyToken jpErr rSample "Token abc".data =
      some (.reject statusUnauthorized "invalid authorization format") ↔
    ¬((splitOnSpace "Token abc".data).length = 2 ∧
      (splitOnSpace "Token abc".data).head? = some "Bearer".data) :=
  C4_header_shape.1 jpErr rSample "Token abc".data (by decide)

/-- Claim C5: the empty header value is rejected with
`401 "missing authorization header"`, and the outcome does not depend on
the parse routine or on the key cache — no token is examined and the
cache is not read. -/
theorem C5_missing_token :
    ∀ (jp jp' : JwtParse) (r r' : RemotePublicKey),
      verifyToken jp r [] =
        some (.reject statusUnauthorized "missing authorization header")
    ∧ verifyToken jp r [] = verifyToken jp' r' [] := by
  intro jp jp' r r'
  exact ⟨rfl, rfl⟩

/-- Claim C7: on a well-shaped `Bearer <token>` header whose token
parses as valid, the handler stores the token's claim mapping unmodified
in the request context under the key `"claims"` and lets the request
proceed. -/
theorem C7_success_path :
    ∀ (jp : JwtParse) (r : RemotePublicKey) (t : List Char) (m : ClaimMap),
      ' ' ∉ t →
      jp (middlewareKeyfunc r) t = .token true (.mapClaims m) →
      verifyToken jp r ("Bearer".data ++ ' ' :: t) =
        some (.proceed "claims" m) := by
  intro jp r t m ht hjp
  rw [verifyToken_bearer ht, hjp]
  rfl

/-- Witness for C7 at a concrete valid token. -/
theorem C7_success_path_witness :
    verifyToken jpOk rSample ("Bearer".data ++ ' ' :: "tok".data) =
      some (.proceed "claims" [("sub", "alice")]) :=
  C7_success_path jpOk rSample "tok".data [("sub", "alice")] (by decide) rfl

/-- Claim C8: in every reachable interleaving of one refresh with any
number of readers, the write lock is held only across the in-memory
assignment steps (never while the wpc is at the network fetch or still
waiting to acquire), and whenever any reader is inside its read-locked
section the shared key/timestamp pair is exactly the old pair or exactly
the new pair — never a partially written mixture. -/
theorem C8_race_free_key_access :
    ∀ (k0 : RSAPublicKey) (t0 : Nat) (k1 : RSAPublicKey) (t1 : Nat)
      (c : RaceConf), RaceReachable k0 t0 k1 t1 c →
      (c.writerHolds = true →
        (c.wpc = .setKey ∨ c.wpc = .setTime ∨ c.wpc = .release))
    ∧ ((c.wpc = .fetching ∨ c.wpc = .acquire) → c.writerHolds = false)
    ∧ (0 < c.readerCount →
        (c.key = k0 ∧ c.updatedAt = t0) ∨ (c.key = k1 ∧ c.updatedAt = t1)) := by
  intro k0 t0 k1 t1 c hreach
  obtain ⟨ihLock, ihExcl, ihOld, ihMid, ihNew⟩ := raceInv_of_reachable hreach
  refine ⟨fun hw => ihLock.mp hw, ?_, ?_⟩
  · intro hpc
    cases hw : c.writerHolds with
    | false => rfl
    | true =>
        rcases ihLock.mp hw with h | h | h <;> rcases hpc with hp | hp <;>
          rw [hp] at h <;> exact absurd h (by simp)
  · intro hrc
    have hw : c.writerHolds = false := by
      cases hw : c.writerHolds with
      | false => rfl
      | true => rw [ihExcl hw] at hrc; exact absurd hrc (by simp)
    cases hpc : c.wpc with
    | fetching => exact Or.inl (ihOld (by simp [hpc]))
    | acquire => exact Or.inl (ihOld (by simp [hpc]))
    | setKey =>
        have := ihLock.mpr (Or.inl hpc)
        rw [hw] at this
        exact absurd this (by simp)
    | setTime =>
        have := ihLock.mpr (Or.inr (Or.inl hpc))
        rw [hw] at this
        exact absurd this (by simp)
    | release =>
        have := ihLock.mpr (Or.inr (Or.inr hpc))
        rw [hw] at this
        exact absurd this (by simp)
    | done => exact Or.inr (ihNew (Or.inr hpc))

/-- A configuration with one reader inside its critical section, for the
C8 witness: the initial state after the reader's `RLock`. -/
def cReader : RaceConf :=
  { key := ⟨1, 1⟩, updatedAt := 0, writerHolds := false, readerCount := 1,
    wpc := .fetching }

/-- Witness for C8 at a concrete reachable configuration holding the
read lock. -/
theorem C8_race_free_key_access_witness :
    (cReader.key = (⟨1, 1⟩ : RSAPublicKey) ∧ cReader.updatedAt = 0) ∨
    (cReader.key = (⟨2, 2⟩ : RSAPublicKey) ∧ cReader.updatedAt = 5) := by
  have hreach : RaceReachable ⟨1, 1⟩ 0 ⟨2, 2⟩ 5 cReader :=
    Relation.ReflTransGen.single (RaceStep.rlock rfl)
  exact (C8_race_free_key_access ⟨1, 1⟩ 0 ⟨2, 2⟩ 5 cReader hreach).2.2
    (by decide)

/-- Claim C9: whenever the parse routine satisfies the library contract
that every produced token carries a `MapClaims` mapping, the handler
never reaches the panic of the unchecked type assertion — it returns a
result on every header value. -/
theorem C9_assertion_never_fails :
    ∀ (jp : JwtParse), JwtParseYieldsMapClaims jp →
      ∀ (r : RemotePublicKey) (auth : List Char),
        verifyToken jp r auth ≠ none := by
  intro jp hjp r auth
  by_cases hne : auth = []
  · subst hne
    simp [verifyToken]
  · cases hsp : splitOnSpace auth with
    | nil => exact absurd hsp (splitOnSpace_ne_nil auth)
    | cons p ps =>
        cases ps with
        | nil => rw [verifyToken_not_two hne (by simp [hsp])]; simp
        | cons q qs =>
            cases qs with
            | cons w ws => rw [verifyToken_not_two hne (by simp [hsp])]; simp
            | nil =>
                rw [verifyToken_of_two hne hsp]
                by_cases hb : p = "Bearer".data
                · rw [if_pos hb]
                  cases hpo : jp (middlewareKeyfunc r) q with
                  | parseErr => simp
                  | token v cl =>
                      obtain ⟨m, hm⟩ := hjp (middlewareKeyfunc r) q v cl hpo
                      subst hm
                      cases v <;> simp
                · rw [if_neg hb]
                  simp

/-- Witness for C9 at a concrete map-claims parse routine. -/
theorem C9_assertion_never_fails_witness :
    verifyToken jpOk rSample ("Bearer".data ++ ' ' :: "x".data) ≠ none := by
  apply C9_assertion_never_fails
  intro kf t v cl h
  injection h with hv hcl
  exact ⟨[("sub", "alice")], hcl.symm⟩

/-- Claim C10: the key callback handed to the JWT parse is a constant
function — for every token header (whatever algorithm it declares) it
returns the cache's current key with a nil error — and consequently the
handler's behaviour depends on the cache only through that current key. -/
theorem C10_constant_keyfunc :
    (∀ (r : RemotePublicKey) (hdr : TokenHeader),
       middlewareKeyfunc r hdr = (r.Get, none))
  ∧ (∀ (jp : JwtParse) (r1 r2 : RemotePublicKey) (auth : List Char),
       r1.Get = r2.Get →
       verifyToken jp r1 auth = verifyToken jp r2 auth) := by
  constructor
  · intro r hdr
    rfl
  · intro jp r1 r2 auth hget
    have hkf : middlewareKeyfunc r1 = middlewareKeyfunc r2 :=
      funext fun _ => by rw [middlewareKeyfunc, middlewareKeyfunc, hget]
    unfold verifyToken
    rw [hkf]

/-- Witness for C10 at two caches sharing the key behind different
URLs. -/
theorem C10_constant_keyfunc_witness :
    verifyToken jpErr rSample ("Bearer".data ++ ' ' :: "x".data) =
      verifyToken jpErr rSample2 ("Bearer".data ++ ' ' :: "x".data) :=
  C10_constant_keyfunc.2 jpErr rSample rSample2
    ("Bearer".data ++ ' ' :: "x".data) rfl

end GoMiddle
